import Mathlib

/-!
# ExtendedTinyGSM: a shallow embedding of `src/ExtendedTinyGSM.cpp`

The class adds a handful of AT-command helpers to a modem driver.  Every
method talks to collaborators that live outside the repository: the driver
(`sendAT`, `waitResponse`, `restart`), the serial stream (`readStringUntil`),
the board (`digitalWrite`, `delay`) and the Arduino `String` class
(`indexOf`, `substring`, `toInt`).  The collaborators are embedded as a
recording test double (`Transport`) and as list functions that follow the
reference implementations of the Arduino core; the methods of the class are
translated statement by statement on top of them.

Conventions of the embedding:
* an Arduino `String` is the list of the characters it stores; the C
  functions it hands its buffer to (`strstr`, `atol`) see that buffer only up
  to the first NUL byte;
* string indices are mathematical integers (a `String` never grows past what
  `int` can index on the boards the library supports);
* `int` results that come from message data are narrowed to `intBits` bits;
* `uint8_t` arguments are natural numbers.
-/

namespace ExtendedTinyGSM

/-! ## The recording transport -/

/-- One observable call made on a collaborator. -/
inductive Effect where
  | sendAT (cmd : String)
  | waitResponse (timeoutMs : Nat)
  | digitalWrite (pin : Nat) (level : Bool)
  | delay (ms : Nat)
  | restart
  deriving DecidableEq

/-- The collaborators as a test double: `trace` records every call in order,
`replies` scripts the statuses that successive `waitResponse` calls return
(`0`, the driver's timeout status, once the script is exhausted), `stream`
holds the characters still pending on the serial line once the
acknowledgement has been taken, and `restartResult` is what the driver's
`restart` reports. -/
structure Transport where
  trace : List Effect
  replies : List Int
  stream : List Char
  restartResult : Bool
  deriving DecidableEq

/-- Modelled from the spec: the driver's `sendAT(command-parts...)`, which is
not part of the repository.  The parts are printed one after the other and
form one command; the double records its text (without the `AT` the driver
puts in front and the line end it puts behind). -/
def sendAT (parts : List String) (t : Transport) : Transport :=
  { t with trace := t.trace ++ [Effect.sendAT (String.join parts)] }

/-- The status the next `waitResponse` call is going to return. -/
def nextStatus (t : Transport) : Int := t.replies.headD 0

/-- Modelled from the spec: the driver's `waitResponse(timeout)`, which is not
part of the repository.  It yields an integer status, `1` for OK; the double
records the timeout and takes the status from the script. -/
def waitResponse (timeoutMs : Nat) (t : Transport) : Int × Transport :=
  (nextStatus t,
   { t with trace := t.trace ++ [Effect.waitResponse timeoutMs], replies := t.replies.tail })

/-- Modelled from the spec: the board's write on a pin, `digitalWrite(pin,
level)`, recorded by the double. -/
def digitalWrite (pin : Nat) (level : Bool) (t : Transport) : Transport :=
  { t with trace := t.trace ++ [Effect.digitalWrite pin level] }

/-- Modelled from the spec: the board's busy wait `delay(ms)`, recorded by the
double. -/
def delay (ms : Nat) (t : Transport) : Transport :=
  { t with trace := t.trace ++ [Effect.delay ms] }

/-- Modelled from the spec: the driver's own restart handshake
`TinyGsm::restart()`, recorded by the double as one call. -/
def restart (t : Transport) : Bool × Transport :=
  (t.restartResult, { t with trace := t.trace ++ [Effect.restart] })

/-- The commands sent so far, oldest first. -/
def sentCommands (t : Transport) : List String :=
  t.trace.filterMap fun e =>
    match e with
    | Effect.sendAT cmd => some cmd
    | _ => none

/-- The timeouts of the waits made so far, oldest first. -/
def waitCalls (t : Transport) : List Nat :=
  t.trace.filterMap fun e =>
    match e with
    | Effect.waitResponse ms => some ms
    | _ => none

/-! ## The stream and the Arduino `String` -/

/-- Modelled from the spec: the line reader of the stream, after
`Stream::readStringUntil` of the Arduino core, which is not part of the
repository.  Characters are read up to the terminator, which is consumed and
not returned; reading also ends when nothing is pending any more (the
reader's timeout).  Returns the string and the characters left. -/
def readStringUntil (terminator : Char) : List Char → List Char × List Char
  | [] => ([], [])
  | c :: cs =>
    if c = terminator then ([], cs)
    else ((c :: (readStringUntil terminator cs).1), (readStringUntil terminator cs).2)

/-- The call `stream.readStringUntil(terminator)` on the transport. -/
def streamReadStringUntil (terminator : Char) (t : Transport) : List Char × Transport :=
  ((readStringUntil terminator t.stream).1,
   { t with stream := (readStringUntil terminator t.stream).2 })

/-- Whether `pat` is an initial segment of `s` (the comparison `strstr` makes
at each offset). -/
def startsWith : List Char → List Char → Bool
  | _, [] => true
  | [], _ :: _ => false
  | c :: cs, p :: ps => c == p && startsWith cs ps

/-- The scan of `strstr`: the offset of the first position of `s` at which
`pat` starts, if there is one. -/
def firstOccurrence : List Char → List Char → Option Nat
  | [], pat => if startsWith [] pat then some 0 else none
  | c :: cs, pat =>
    if startsWith (c :: cs) pat then some 0 else (firstOccurrence cs pat).map (· + 1)

/-- The C string held in a buffer: the characters before the first NUL byte. -/
def cString (buffer : List Char) : List Char :=
  buffer.takeWhile fun c => c != '\x00'

/-- The C function `strstr`, which `String::indexOf` calls on the buffers of
the two strings: both arguments end at their first NUL byte, and the result
is the offset of the first occurrence of the second in the first, if there
is one. -/
def strstr (s pat : List Char) : Option Nat :=
  firstOccurrence (cString s) (cString pat)

/-- Modelled from the spec: the search for a delimiter, after
`String::indexOf(const String &s2, unsigned int fromIndex)` of the Arduino
core, which is not part of the repository: `-1` when `fromIndex` is not
inside the string or `strstr(buffer + fromIndex, s2.buffer)` finds nothing,
otherwise the index of the occurrence found.  A NUL byte stored in the string
therefore hides everything behind it from the search. -/
def indexOf (s pat : List Char) (fromIndex : Nat) : Int :=
  if fromIndex ≥ s.length then -1
  else
    match strstr (s.drop fromIndex) pat with
    | none => -1
    | some k => ((fromIndex + k : Nat) : Int)

/-- Modelled from the spec: the text between two indices, after
`String::substring(left, right)` of the Arduino core, which is not part of
the repository: the bounds are swapped when out of order, the result is empty
when `left` is past the end, and `right` is clamped to the length. -/
def substring (s : List Char) (left right : Nat) : List Char :=
  let l := if left > right then right else left
  let r := if left > right then left else right
  if l ≥ s.length then []
  else (s.drop l).take ((if r > s.length then s.length else r) - l)

/-- The predicate `isspace` of the C locale, which `atol` uses to skip
leading white space. -/
def isSpace (c : Char) : Bool :=
  c == ' ' || (9 ≤ c.toNat && c.toNat ≤ 13)

/-- The digit loop of `atol`: accumulate decimal digits until the first
character that is not one. -/
def atolDigits : Nat → List Char → Nat
  | acc, [] => acc
  | acc, c :: cs =>
    if c.isDigit then atolDigits (acc * 10 + (c.toNat - '0'.toNat)) cs else acc

/-- The C function `atol`, which `String::toInt` calls: leading white space,
an optional sign, then digits; `0` when no digit follows. -/
def atol (s : List Char) : Int :=
  match s.dropWhile isSpace with
  | '-' :: r => -((atolDigits 0 r : Nat) : Int)
  | '+' :: r => ((atolDigits 0 r : Nat) : Int)
  | r => ((atolDigits 0 r : Nat) : Int)

/-- Modelled from the spec: the base-10 parse, after `String::toInt()` of the
Arduino core, which is not part of the repository. -/
def toInt (s : List Char) : Int := atol s

/-- Narrowing of a value to a signed integer of `bits` bits (two's
complement), as in the initialisation `int smsIndex = ....toInt()`. -/
def narrow (bits : Nat) (z : Int) : Int :=
  if 2 * (z % 2 ^ bits) < 2 ^ bits then z % 2 ^ bits else z % 2 ^ bits - 2 ^ bits

/-! ## The methods of the class -/

/-- The method `hardwareReset(resetPin, resetLogic)`. -/
def hardwareReset (resetPin : Nat) (resetLogic : Bool) (t : Transport) : Bool × Transport :=
  let t := digitalWrite resetPin resetLogic t
  let t := delay 2000 t
  let t := digitalWrite resetPin (!resetLogic) t
  let t := delay 5000 t
  restart t

/-- The method `setSmsMessageFormat(format)`. -/
def setSmsMessageFormat (format : Bool) (t : Transport) : Bool × Transport :=
  let t := sendAT ["+CMGF=", if format then "1" else "0"] t
  let r := waitResponse 1000 t
  (decide (r.1 = 1), r.2)

/-- The method `setSmsIndication(mode, mt, bm, ds, bfr)`. -/
def setSmsIndication (mode mt bm ds bfr : Nat) (t : Transport) : Bool × Transport :=
  if mode > 3 ∨ mt > 3 then (false, t)
  else if bm ≠ 0 ∧ bm ≠ 2 then (false, t)
  else if ds > 1 ∨ bfr > 1 then (false, t)
  else
    let t := sendAT ["+CNMI=", toString mode, ",", toString mt, ",", toString bm, ",",
      toString ds, ",", toString bfr] t
    let r := waitResponse 1000 t
    (decide (r.1 = 1), r.2)

/-- The method `setSmsParameters(fo, vp, pid, dcs)`. -/
def setSmsParameters (fo vp pid dcs : Nat) (t : Transport) : Bool × Transport :=
  if fo > 255 ∨ vp > 255 ∨ pid > 255 ∨ dcs > 255 then (false, t)
  else
    let t := sendAT ["+CSMP=", toString fo, ",", toString vp, ",", toString pid, ",",
      toString dcs] t
    let r := waitResponse 1000 t
    (decide (r.1 = 1), r.2)

/-- The method `checkForNewSMS()`; `intBits` is the width of `int`. -/
def checkForNewSMS (intBits : Nat) (t : Transport) : Int × Transport :=
  let t := sendAT ["+CMGL=\"REC UNREAD\""] t
  let r := waitResponse 10000 t
  if r.1 = 1 then
    let q := streamReadStringUntil '\n' r.2
    let response := q.1
    let indexStart : Int := indexOf response [':', ' '] 0 + 2
    let indexEnd : Int := indexOf response [','] indexStart.toNat
    if indexStart ≠ -1 ∧ indexEnd ≠ -1 then
      (narrow intBits (toInt (substring response indexStart.toNat indexEnd.toNat)), q.2)
    else (-1, q.2)
  else (-1, r.2)

/-- The method `getSmsNumber(smsIndex)`. -/
def getSmsNumber (smsIndex : Int) (t : Transport) : List Char × Transport :=
  let t := sendAT ["+CMGR=", toString smsIndex] t
  let r := waitResponse 10000 t
  if r.1 = 1 then
    let q := streamReadStringUntil '\n' r.2
    let response := q.1
    let startIdx : Int := indexOf response [',', '"'] 0 + 2
    let endIdx : Int := indexOf response ['"'] startIdx.toNat
    if startIdx ≠ -1 ∧ endIdx ≠ -1 then
      (substring response startIdx.toNat endIdx.toNat, q.2)
    else ([], q.2)
  else ([], r.2)

/-- The method `getSmsText(smsIndex)`. -/
def getSmsText (smsIndex : Int) (t : Transport) : List Char × Transport :=
  let t := sendAT ["+CMGR=", toString smsIndex] t
  let r := waitResponse 10000 t
  if r.1 = 1 then
    let skipped := streamReadStringUntil '\n' r.2
    let message := streamReadStringUntil '\n' skipped.2
    (message.1, message.2)
  else ([], r.2)

/-- The enumeration `SmsDeleteMode`. -/
inductive SmsDeleteMode where
  | READ
  | UNREAD
  | SENT
  | UNSENT
  | INBOX
  | ALL
  deriving DecidableEq

/-- The value an enumerator of `SmsDeleteMode` has in the program. -/
def SmsDeleteMode.value : SmsDeleteMode → Nat
  | READ => 0
  | UNREAD => 1
  | SENT => 2
  | UNSENT => 3
  | INBOX => 4
  | ALL => 5

/-- The method `deleteSmsByMode(mode)`, on the value of its argument so that
the `default` arm of the `switch` is kept. -/
def deleteSmsByMode (mode : Nat) (t : Transport) : Bool × Transport :=
  let command := "+CMGDA=\"DEL "
  let chosen : Option String :=
    match mode with
    | 0 => some (command ++ "READ\"")
    | 1 => some (command ++ "UNREAD\"")
    | 2 => some (command ++ "SENT\"")
    | 3 => some (command ++ "UNSENT\"")
    | 4 => some (command ++ "INBOX\"")
    | 5 => some (command ++ "ALL\"")
    | _ => none
  match chosen with
  | none => (false, t)
  | some command =>
    let t := sendAT [command] t
    let r := waitResponse 10000 t
    if r.1 = 1 then (true, r.2) else (false, r.2)

/-- The method `deleteSmsByIndex(smsIndex)`. -/
def deleteSmsByIndex (smsIndex : Int) (t : Transport) : Bool × Transport :=
  let t := sendAT ["+CMGD=" ++ toString smsIndex] t
  let r := waitResponse 10000 t
  if r.1 = 1 then (true, r.2) else (false, r.2)

/-! ## Notions used to state the properties -/

/-- The number written by a string of decimal digits, most significant
digit first. -/
def decimalValue (d : List Char) : Nat :=
  Nat.ofDigits 10 (d.reverse.map fun c => c.toNat - '0'.toNat)

/-- A transport on which nothing has happened yet: the modem is going to
answer `status` and `pending` is what the stream then holds. -/
def freshTransport (status : Int) (pending : String) : Transport :=
  { trace := [], replies := [status], stream := pending.toList, restartResult := true }


/-- The name an enumerator of `SmsDeleteMode` is written with. -/
def SmsDeleteMode.name : SmsDeleteMode → String
  | READ => "READ"
  | UNREAD => "UNREAD"
  | SENT => "SENT"
  | UNSENT => "UNSENT"
  | INBOX => "INBOX"
  | ALL => "ALL"

/-! ## Lemmas on the stream and the string functions -/

theorem readStringUntil_line (terminator : Char) (line rest : List Char)
    (h : terminator ∉ line) :
    readStringUntil terminator (line ++ terminator :: rest) = (line, rest) := by
  induction line with
  | nil => simp [readStringUntil]
  | cons c cs ih =>
    have hc : c ≠ terminator := fun e => h (by simp [e])
    have hcs : terminator ∉ cs := fun e => h (by simp [e])
    simp [readStringUntil, hc, ih hcs]

theorem firstOccurrence_single (c : Char) (d rest : List Char) (h : c ∉ d) :
    firstOccurrence (d ++ c :: rest) [c] = some d.length := by
  induction d with
  | nil => simp [firstOccurrence, startsWith]
  | cons x xs ih =>
    have hx : x ≠ c := fun e => h (by simp [e])
    have hxs : c ∉ xs := fun e => h (by simp [e])
    simp [firstOccurrence, startsWith, hx, ih hxs]

theorem firstOccurrence_pair (a b : Char) (hab : a ≠ b) (pre rest : List Char)
    (h : ¬ [a, b] <:+: pre) :
    firstOccurrence (pre ++ a :: b :: rest) [a, b] = some pre.length := by
  induction pre with
  | nil => simp [firstOccurrence, startsWith]
  | cons x xs ih =>
    have hxs : ¬ [a, b] <:+: xs := fun e => h (List.infix_cons e)
    have hstart : startsWith (x :: (xs ++ a :: b :: rest)) [a, b] = false := by
      cases xs with
      | nil => simp [startsWith, hab]
      | cons y ys =>
        simp only [startsWith, List.cons_append, Bool.and_true, Bool.and_eq_false_imp, beq_iff_eq]
        intro hx
        simp only [beq_eq_false_iff_ne]
        intro hy
        apply h
        subst hx hy
        exact ⟨[], ys, by simp⟩
    rw [List.cons_append, firstOccurrence, if_neg (by simp [hstart]), ih hxs]
    simp

theorem cString_append (xs ys : List Char) (h : '\x00' ∉ xs) :
    cString (xs ++ ys) = xs ++ cString ys := by
  induction xs with
  | nil => rfl
  | cons x rest ih =>
    have hx : x ≠ '\x00' := fun e => h (by simp [e])
    have hrest : '\x00' ∉ rest := fun e => h (by simp [e])
    have ih2 := ih hrest
    have hkeep : (x != '\x00') = true := by simpa using hx
    unfold cString at ih2 ⊢
    rw [List.cons_append, List.takeWhile_cons, hkeep, ih2]
    rfl

theorem cString_cons (x : Char) (ys : List Char) (hx : x ≠ '\x00') :
    cString (x :: ys) = x :: cString ys := by
  have := cString_append [x] ys (by simpa using hx.symm)
  simpa using this

theorem cString_nil : cString [] = [] := rfl

theorem strstr_single (c : Char) (hc : c ≠ '\x00') (d rest : List Char) (h : c ∉ d)
    (hnul : '\x00' ∉ d) :
    strstr (d ++ c :: rest) [c] = some d.length := by
  unfold strstr
  rw [cString_append d _ hnul, cString_cons c rest hc, cString_cons c [] hc, cString_nil]
  exact firstOccurrence_single c d _ h

theorem strstr_pair (a b : Char) (hab : a ≠ b) (ha : a ≠ '\x00') (hb : b ≠ '\x00')
    (pre rest : List Char) (h : ¬ [a, b] <:+: pre) (hnul : '\x00' ∉ pre) :
    strstr (pre ++ a :: b :: rest) [a, b] = some pre.length := by
  unfold strstr
  rw [cString_append pre _ hnul, cString_cons a _ ha, cString_cons b rest hb,
    cString_cons a [b] ha, cString_cons b [] hb, cString_nil]
  exact firstOccurrence_pair a b hab pre _ h

theorem indexOf_pair (a b : Char) (hab : a ≠ b) (ha : a ≠ '\x00') (hb : b ≠ '\x00')
    (pre rest : List Char) (h : ¬ [a, b] <:+: pre) (hnul : '\x00' ∉ pre) :
    indexOf (pre ++ a :: b :: rest) [a, b] 0 = (pre.length : Int) := by
  simp [indexOf, strstr_pair a b hab ha hb pre rest h hnul]

theorem indexOf_single (c : Char) (hc : c ≠ '\x00') (pre d rest : List Char) (h : c ∉ d)
    (hnul : '\x00' ∉ d) :
    indexOf (pre ++ (d ++ c :: rest)) [c] pre.length = ((pre.length + d.length : Nat) : Int) := by
  simp [indexOf, strstr_single c hc d rest h hnul]

theorem substring_mid (pre d rest : List Char) :
    substring (pre ++ (d ++ rest)) pre.length (pre.length + d.length) = d := by
  unfold substring
  by_cases hd : d = []
  · subst hd; simp
  · have hpos : 0 < d.length := List.length_pos.mpr hd
    have h1 : ¬ (pre.length > pre.length + d.length) := by omega
    have h2 : ¬ (pre.length ≥ (pre ++ (d ++ rest)).length) := by
      simp only [List.length_append]; omega
    have h3 : ¬ (pre.length + d.length > (pre ++ (d ++ rest)).length) := by
      simp only [List.length_append]; omega
    simp only [h1, h2, h3, if_false]
    simp

/-! ## Lemmas on the conversion to a number -/

theorem decimalValue_cons (c : Char) (cs : List Char) :
    decimalValue (c :: cs) = (c.toNat - '0'.toNat) * 10 ^ cs.length + decimalValue cs := by
  simp [decimalValue, Nat.ofDigits_append, Nat.ofDigits_singleton]
  ring

theorem atolDigits_digits (d : List Char) (hd : ∀ c ∈ d, c.isDigit = true) (acc : Nat) :
    atolDigits acc d = acc * 10 ^ d.length + decimalValue d := by
  induction d generalizing acc with
  | nil => simp [atolDigits, decimalValue]
  | cons c cs ih =>
    have hc : c.isDigit = true := hd c (by simp)
    have hcs : ∀ x ∈ cs, x.isDigit = true := fun x hx => hd x (by simp [hx])
    rw [atolDigits, if_pos hc, ih hcs, decimalValue_cons]
    simp only [List.length_cons]
    ring

theorem isSpace_of_isDigit (c : Char) (h : c.isDigit = true) : isSpace c = false := by
  simp only [Char.isDigit, Bool.and_eq_true, decide_eq_true_eq] at h
  have h1 : 48 ≤ c.toNat := by
    have := h.1
    exact this
  have hne : c ≠ ' ' := by
    intro e
    subst e
    revert h1
    decide
  simp [isSpace, hne]
  omega

theorem atol_digits (d : List Char) (hd : ∀ c ∈ d, c.isDigit = true) :
    atol d = (decimalValue d : Int) := by
  cases d with
  | nil => simp [atol, atolDigits, decimalValue]
  | cons c cs =>
    have hc : c.isDigit = true := hd c (by simp)
    have hdrop : (c :: cs).dropWhile isSpace = c :: cs := by
      simp [List.dropWhile, isSpace_of_isDigit c hc]
    have hminus : c ≠ '-' := by
      intro e
      subst e
      revert hc
      decide
    have hplus : c ≠ '+' := by
      intro e
      subst e
      revert hc
      decide
    unfold atol
    rw [hdrop]
    split
    · rename_i heq
      exact absurd (List.cons.inj heq).1 hminus
    · rename_i heq
      exact absurd (List.cons.inj heq).1 hplus
    · rw [atolDigits_digits (c :: cs) hd 0]
      simp

theorem narrow_of_fits (bits : Nat) (n : Nat) (h : 2 * n < 2 ^ bits) :
    narrow bits (n : Int) = (n : Int) := by
  have hlt : (n : Int) < 2 ^ bits := by
    have : n < 2 ^ bits := by omega
    exact_mod_cast this
  have hmod : (n : Int) % 2 ^ bits = n := Int.emod_eq_of_lt (by positivity) hlt
  have h2 : 2 * (n : Int) < 2 ^ bits := by exact_mod_cast h
  simp [narrow, hmod, h2]

theorem comma_not_digit (d : List Char) (hd : ∀ c ∈ d, c.isDigit = true) : ',' ∉ d := by
  intro hmem
  have := hd ',' hmem
  revert this
  decide

theorem nul_not_digit (d : List Char) (hd : ∀ c ∈ d, c.isDigit = true) : '\x00' ∉ d := by
  intro hmem
  have := hd '\x00' hmem
  revert this
  decide

/-! ## Lemmas on the transport -/

@[simp] theorem waitResponse_fst (ms : Nat) (t : Transport) :
    (waitResponse ms t).1 = nextStatus t := rfl

@[simp] theorem waitResponse_stream (ms : Nat) (t : Transport) :
    (waitResponse ms t).2.stream = t.stream := rfl

@[simp] theorem waitResponse_trace (ms : Nat) (t : Transport) :
    (waitResponse ms t).2.trace = t.trace ++ [Effect.waitResponse ms] := rfl

@[simp] theorem sendAT_stream (parts : List String) (t : Transport) :
    (sendAT parts t).stream = t.stream := rfl

@[simp] theorem sendAT_trace (parts : List String) (t : Transport) :
    (sendAT parts t).trace = t.trace ++ [Effect.sendAT (String.join parts)] := rfl

@[simp] theorem sendAT_nextStatus (parts : List String) (t : Transport) :
    nextStatus (sendAT parts t) = nextStatus t := rfl

@[simp] theorem streamReadStringUntil_fst (c : Char) (t : Transport) :
    (streamReadStringUntil c t).1 = (readStringUntil c t.stream).1 := rfl

@[simp] theorem streamReadStringUntil_stream (c : Char) (t : Transport) :
    (streamReadStringUntil c t).2.stream = (readStringUntil c t.stream).2 := rfl

@[simp] theorem streamReadStringUntil_trace (c : Char) (t : Transport) :
    (streamReadStringUntil c t).2.trace = t.trace := rfl

/-! ## The properties -/

/-- C1, as stated, fails when a NUL byte stands before the delimiter: the
acknowledged line `a`, NUL, `: 5,` has the stated shape (`pre` is `a`, NUL and
holds no `": "`, `d` is `5`, `rest` is empty), yet the search stops at the
NUL byte and the result is `-1`, not `5`. -/
theorem checkForNewSMS_nul_before_delimiter :
    nextStatus (freshTransport 1 "a\x00: 5,\n") = 1 ∧
    (readStringUntil '\n' (freshTransport 1 "a\x00: 5,\n").stream).1
      = ['a', '\x00'] ++ [':', ' '] ++ ['5'] ++ [','] ++ [] ∧
    ¬ [':', ' '] <:+: ['a', '\x00'] ∧
    (∀ c ∈ ['5'], c.isDigit = true) ∧
    2 * decimalValue ['5'] < 2 ^ 16 ∧
    decimalValue ['5'] = 5 ∧
    (checkForNewSMS 16 (freshTransport 1 "a\x00: 5,\n")).1 = -1 := by
  decide

/-- C1, amended: on an acknowledged exchange whose next stream line is
`pre ++ ": " ++ d ++ "," ++ rest`, with neither `": "` nor a NUL byte inside
`pre` and `d` a non-empty string of decimal digits whose value fits in `int`
(`2 * n < 2 ^ intBits`), `checkForNewSMS` returns that value; `rest` is
arbitrary. -/
theorem checkForNewSMS_returns_listed_index (intBits : Nat) (t : Transport)
    (pre d rest : List Char)
    (hack : nextStatus t = 1)
    (hline : (readStringUntil '\n' t.stream).1 = pre ++ [':', ' '] ++ d ++ [','] ++ rest)
    (hpre : ¬ [':', ' '] <:+: pre)
    (hnul : '\x00' ∉ pre)
    (hne : d ≠ [])
    (hd : ∀ c ∈ d, c.isDigit = true)
    (hfit : 2 * decimalValue d < 2 ^ intBits) :
    (checkForNewSMS intBits t).1 = (decimalValue d : Int) := by
  have _ := hne
  have hshape : pre ++ [':', ' '] ++ d ++ [','] ++ rest
      = pre ++ ':' :: ' ' :: (d ++ ',' :: rest) := by simp
  have hshape2 : pre ++ [':', ' '] ++ d ++ [','] ++ rest
      = (pre ++ [':', ' ']) ++ (d ++ ',' :: rest) := by simp
  have hstart : indexOf (pre ++ [':', ' '] ++ d ++ [','] ++ rest) [':', ' '] 0
      = (pre.length : Int) := by
    rw [hshape]
    exact indexOf_pair ':' ' ' (by decide) (by decide) (by decide) pre _ hpre hnul
  have hend : indexOf (pre ++ [':', ' '] ++ d ++ [','] ++ rest) [','] (pre.length + 2)
      = ((pre.length + 2 + d.length : Nat) : Int) := by
    rw [hshape2]
    have := indexOf_single ',' (by decide) (pre ++ [':', ' ']) d rest (comma_not_digit d hd)
      (nul_not_digit d hd)
    simpa using this
  have hsub : substring (pre ++ [':', ' '] ++ d ++ [','] ++ rest) (pre.length + 2)
      (pre.length + 2 + d.length) = d := by
    rw [hshape2]
    have := substring_mid (pre ++ [':', ' ']) d (',' :: rest)
    simpa using this
  have htoNat : ((pre.length : Int) + 2).toNat = pre.length + 2 := by omega
  have htoNat2 : (((pre.length + 2 + d.length : Nat) : Int)).toNat = pre.length + 2 + d.length := by
    omega
  have hne1 : ((pre.length : Int) + 2) ≠ -1 := by omega
  have hne2 : (((pre.length + 2 + d.length : Nat) : Int)) ≠ -1 := by omega
  simp only [checkForNewSMS, waitResponse_fst, sendAT_nextStatus, hack, if_true,
    streamReadStringUntil_fst, waitResponse_stream, sendAT_stream, hline, hstart, htoNat, hend,
    htoNat2, hsub, toInt, atol_digits d hd, narrow_of_fits intBits _ hfit]
  rw [if_pos ⟨hne1, hne2⟩]

/-- C1, witness of the amended statement: the header line
`+CMGL: 3,"REC UNREAD","+1234567890",,"24/01/01,10:00:00+00"` yields `3`. -/
theorem checkForNewSMS_returns_listed_index_witness :
    (checkForNewSMS 16 (freshTransport 1
      "+CMGL: 3,\"REC UNREAD\",\"+1234567890\",,\"24/01/01,10:00:00+00\"\n")).1 = 3 :=
  checkForNewSMS_returns_listed_index 16
    (freshTransport 1 "+CMGL: 3,\"REC UNREAD\",\"+1234567890\",,\"24/01/01,10:00:00+00\"\n")
    "+CMGL".toList "3".toList "\"REC UNREAD\",\"+1234567890\",,\"24/01/01,10:00:00+00\"".toList
    (by decide) (by decide) (by decide) (by decide) (by decide) (by decide) (by decide)

/-- C2, the code at a failing input: the acknowledged line
`24/01/01,10:00:00+00` has no `": "`, yet the result is `4`, not `-1`. -/
theorem checkForNewSMS_without_colon_space :
    ¬ [':', ' '] <:+: "24/01/01,10:00:00+00".toList ∧
    (checkForNewSMS 16 (freshTransport 1 "24/01/01,10:00:00+00\n")).1 = 4 := by
  decide

/-- C3, as stated, fails when a NUL byte stands inside the field or before
the opening delimiter.  The acknowledged line `x,"ab`, NUL, `cd"y` has the
stated shape with the field `ab`, NUL, `cd`, yet the search for the closing
quote stops at the NUL byte and the result is empty.  The acknowledged line
NUL, `,"ab"` has the stated shape with the field `ab`, yet the search for the
opening pair stops at once and the result is `,`. -/
theorem getSmsNumber_nul_hides_delimiter :
    (nextStatus (freshTransport 1 "x,\"ab\x00cd\"y\n") = 1 ∧
      (readStringUntil '\n' (freshTransport 1 "x,\"ab\x00cd\"y\n").stream).1
        = ['x'] ++ [',', '"'] ++ ['a', 'b', '\x00', 'c', 'd'] ++ ['"'] ++ ['y'] ∧
      ¬ [',', '"'] <:+: ['x'] ∧
      '"' ∉ ['a', 'b', '\x00', 'c', 'd'] ∧
      (getSmsNumber 3 (freshTransport 1 "x,\"ab\x00cd\"y\n")).1 = []) ∧
    (nextStatus (freshTransport 1 "\x00,\"ab\"\n") = 1 ∧
      (readStringUntil '\n' (freshTransport 1 "\x00,\"ab\"\n").stream).1
        = ['\x00'] ++ [',', '"'] ++ ['a', 'b'] ++ ['"'] ++ [] ∧
      ¬ [',', '"'] <:+: ['\x00'] ∧
      '"' ∉ ['a', 'b'] ∧
      (getSmsNumber 3 (freshTransport 1 "\x00,\"ab\"\n")).1 = [',']) := by
  decide

/-- C3, amended: on an acknowledged exchange whose next stream line is
`pre ++ ",\"" ++ f ++ "\"" ++ rest`, with neither `,"` nor a NUL byte inside
`pre` and neither `"` nor a NUL byte inside `f`, `getSmsNumber` returns
exactly `f`; `rest` is arbitrary. -/
theorem getSmsNumber_returns_quoted_field (smsIndex : Int) (t : Transport)
    (pre f rest : List Char)
    (hack : nextStatus t = 1)
    (hline : (readStringUntil '\n' t.stream).1 = pre ++ [',', '"'] ++ f ++ ['"'] ++ rest)
    (hpre : ¬ [',', '"'] <:+: pre)
    (hprenul : '\x00' ∉ pre)
    (hf : '"' ∉ f)
    (hfnul : '\x00' ∉ f) :
    (getSmsNumber smsIndex t).1 = f := by
  have hshape : pre ++ [',', '"'] ++ f ++ ['"'] ++ rest
      = pre ++ ',' :: '"' :: (f ++ '"' :: rest) := by simp
  have hshape2 : pre ++ [',', '"'] ++ f ++ ['"'] ++ rest
      = (pre ++ [',', '"']) ++ (f ++ '"' :: rest) := by simp
  have hstart : indexOf (pre ++ [',', '"'] ++ f ++ ['"'] ++ rest) [',', '"'] 0
      = (pre.length : Int) := by
    rw [hshape]
    exact indexOf_pair ',' '"' (by decide) (by decide) (by decide) pre _ hpre hprenul
  have hend : indexOf (pre ++ [',', '"'] ++ f ++ ['"'] ++ rest) ['"'] (pre.length + 2)
      = ((pre.length + 2 + f.length : Nat) : Int) := by
    rw [hshape2]
    have := indexOf_single '"' (by decide) (pre ++ [',', '"']) f rest hf hfnul
    simpa using this
  have hsub : substring (pre ++ [',', '"'] ++ f ++ ['"'] ++ rest) (pre.length + 2)
      (pre.length + 2 + f.length) = f := by
    rw [hshape2]
    have := substring_mid (pre ++ [',', '"']) f ('"' :: rest)
    simpa using this
  have htoNat : ((pre.length : Int) + 2).toNat = pre.length + 2 := by omega
  have htoNat2 : (((pre.length + 2 + f.length : Nat) : Int)).toNat = pre.length + 2 + f.length := by
    omega
  have hne1 : ((pre.length : Int) + 2) ≠ -1 := by omega
  have hne2 : (((pre.length + 2 + f.length : Nat) : Int)) ≠ -1 := by omega
  simp only [getSmsNumber, waitResponse_fst, sendAT_nextStatus, hack, if_true,
    streamReadStringUntil_fst, waitResponse_stream, sendAT_stream, hline, hstart, htoNat, hend,
    htoNat2, hsub]
  rw [if_pos ⟨hne1, hne2⟩]

/-- C3, witness of the amended statement: the header line
`+CMGR: "REC UNREAD","+1234567890",,"24/01/01,10:00:00+00"` yields
`+1234567890`. -/
theorem getSmsNumber_returns_quoted_field_witness :
    (getSmsNumber 3 (freshTransport 1
      "+CMGR: \"REC UNREAD\",\"+1234567890\",,\"24/01/01,10:00:00+00\"\n")).1
      = "+1234567890".toList :=
  getSmsNumber_returns_quoted_field 3
    (freshTransport 1 "+CMGR: \"REC UNREAD\",\"+1234567890\",,\"24/01/01,10:00:00+00\"\n")
    "+CMGR: \"REC UNREAD\"".toList "+1234567890".toList ",,\"24/01/01,10:00:00+00\"".toList
    (by decide) (by decide) (by decide) (by decide) (by decide) (by decide)

/-- C4, the code at a failing input: the acknowledged line
`+CMGR: "REC UNREAD"` has no `,"`, yet the result is `CMGR: `, not the empty
string. -/
theorem getSmsNumber_without_comma_quote :
    ¬ [',', '"'] <:+: "+CMGR: \"REC UNREAD\"".toList ∧
    (getSmsNumber 3 (freshTransport 1 "+CMGR: \"REC UNREAD\"\n")).1 = "CMGR: ".toList := by
  decide

/-- C5: on an acknowledged exchange whose pending stream is
`h ++ "\n" ++ b ++ "\n" ++ rest`, with no newline inside `h` and `b`,
`getSmsText` returns exactly `b`, and `rest` is what remains pending. -/
theorem getSmsText_returns_second_line (smsIndex : Int) (t : Transport)
    (h b rest : List Char)
    (hack : nextStatus t = 1)
    (hstream : t.stream = h ++ ['\n'] ++ b ++ ['\n'] ++ rest)
    (hh : '\n' ∉ h)
    (hb : '\n' ∉ b) :
    (getSmsText smsIndex t).1 = b ∧ (getSmsText smsIndex t).2.stream = rest := by
  have hshape : h ++ ['\n'] ++ b ++ ['\n'] ++ rest = h ++ '\n' :: (b ++ '\n' :: rest) := by simp
  have h1 := readStringUntil_line '\n' h (b ++ '\n' :: rest) hh
  have h2 := readStringUntil_line '\n' b rest hb
  simp only [getSmsText, waitResponse_fst, sendAT_nextStatus, hack, if_true,
    streamReadStringUntil_fst, streamReadStringUntil_stream, waitResponse_stream, sendAT_stream,
    hstream, hshape, h1, h2, and_self]

/-- C5, witness: a body with inner spaces, a tab and a trailing carriage
return comes back unchanged. -/
theorem getSmsText_returns_second_line_witness :
    (getSmsText 3 (freshTransport 1
      "+CMGR: \"REC UNREAD\",\"+1234567890\"\r\nHi  there,\tJo \r\n\r\nOK\r\n")).1
      = "Hi  there,\tJo \r".toList :=
  (getSmsText_returns_second_line 3
    (freshTransport 1 "+CMGR: \"REC UNREAD\",\"+1234567890\"\r\nHi  there,\tJo \r\n\r\nOK\r\n")
    "+CMGR: \"REC UNREAD\",\"+1234567890\"\r".toList "Hi  there,\tJo \r".toList
    "\r\nOK\r\n".toList (by decide) (by decide) (by decide) (by decide)).1

/-- C6: a call of `setSmsIndication` with `mode > 3`, `mt > 3`, `bm > 2`,
`ds > 1` or `bfr > 1` returns `false` and leaves the transport as it was:
nothing is sent and nothing is waited for. -/
theorem setSmsIndication_out_of_range (mode mt bm ds bfr : Nat) (t : Transport)
    (h : mode > 3 ∨ mt > 3 ∨ bm > 2 ∨ ds > 1 ∨ bfr > 1) :
    (setSmsIndication mode mt bm ds bfr t).1 = false ∧
    (setSmsIndication mode mt bm ds bfr t).2 = t ∧
    sentCommands (setSmsIndication mode mt bm ds bfr t).2 = sentCommands t ∧
    waitCalls (setSmsIndication mode mt bm ds bfr t).2 = waitCalls t := by
  have hret : setSmsIndication mode mt bm ds bfr t = (false, t) := by
    unfold setSmsIndication
    by_cases h1 : mode > 3 ∨ mt > 3
    · rw [if_pos h1]
    · rw [if_neg h1]
      by_cases h2 : bm ≠ 0 ∧ bm ≠ 2
      · rw [if_pos h2]
      · rw [if_neg h2]
        have h3 : ds > 1 ∨ bfr > 1 := by omega
        rw [if_pos h3]
  simp [hret]

/-- C6, witness: `bfr = 2` on a transport that would have acknowledged. -/
theorem setSmsIndication_out_of_range_witness :
    (setSmsIndication 1 2 0 0 2 (freshTransport 1 "")).1 = false ∧
    sentCommands (setSmsIndication 1 2 0 0 2 (freshTransport 1 "")).2 = [] ∧
    waitCalls (setSmsIndication 1 2 0 0 2 (freshTransport 1 "")).2 = [] :=
  have h := setSmsIndication_out_of_range 1 2 0 0 2 (freshTransport 1 "") (by decide)
  ⟨h.1, h.2.2.1, h.2.2.2⟩

/-- C7, as stated, fails at `bm = 1`: every argument is inside the stated
ranges and the modem would acknowledge, yet nothing is sent and the result
is `false`. -/
theorem setSmsIndication_bm_one_rejected :
    nextStatus (freshTransport 1 "") = 1 ∧
    (setSmsIndication 1 2 1 0 0 (freshTransport 1 "")).1 = false ∧
    sentCommands (setSmsIndication 1 2 1 0 0 (freshTransport 1 "")).2 = [] := by
  decide

/-- C7, amended: with `mode` and `mt` in `0..3`, `bm` equal to `0` or `2`,
and `ds` and `bfr` in `0..1`, `setSmsIndication` sends exactly one command,
`+CNMI=` followed by the five values in decimal separated by commas, waits
once with a timeout of 1000 ms, and returns `true` exactly when
`waitResponse` returns `1`. -/
theorem setSmsIndication_in_range (mode mt bm ds bfr : Nat) (t : Transport)
    (hmode : mode ≤ 3) (hmt : mt ≤ 3) (hbm : bm = 0 ∨ bm = 2) (hds : ds ≤ 1) (hbfr : bfr ≤ 1) :
    (setSmsIndication mode mt bm ds bfr t).2.trace = t.trace ++
      [Effect.sendAT ("+CNMI=" ++ toString mode ++ "," ++ toString mt ++ "," ++ toString bm
        ++ "," ++ toString ds ++ "," ++ toString bfr),
       Effect.waitResponse 1000] ∧
    ((setSmsIndication mode mt bm ds bfr t).1 = true ↔ nextStatus t = 1) := by
  have h1 : ¬ (mode > 3 ∨ mt > 3) := by omega
  have h2 : ¬ (bm ≠ 0 ∧ bm ≠ 2) := by omega
  have h3 : ¬ (ds > 1 ∨ bfr > 1) := by omega
  unfold setSmsIndication
  rw [if_neg h1, if_neg h2, if_neg h3]
  simp [String.join]

/-- C7, witness: the default arguments give `+CNMI=1,2,0,0,0`. -/
theorem setSmsIndication_in_range_witness :
    (setSmsIndication 1 2 0 0 0 (freshTransport 1 "")).2.trace =
      [Effect.sendAT "+CNMI=1,2,0,0,0", Effect.waitResponse 1000] ∧
    (setSmsIndication 1 2 0 0 0 (freshTransport 1 "")).1 = true :=
  have h := setSmsIndication_in_range 1 2 0 0 0 (freshTransport 1 "")
    (by decide) (by decide) (by decide) (by decide) (by decide)
  ⟨h.1, h.2.mpr rfl⟩

/-- C8: for each of the six modes `deleteSmsByMode` sends exactly one
command, `+CMGDA="DEL X"` with `X` the name of the mode, waits once, and
returns `true` exactly when `waitResponse` returns `1`; different modes give
different commands. -/
theorem deleteSmsByMode_command_per_mode (mode : SmsDeleteMode) (t : Transport) :
    (deleteSmsByMode mode.value t).2.trace = t.trace ++
      [Effect.sendAT ("+CMGDA=\"DEL " ++ mode.name ++ "\""), Effect.waitResponse 10000] ∧
    ((deleteSmsByMode mode.value t).1 = true ↔ nextStatus t = 1) ∧
    Function.Injective (fun m : SmsDeleteMode => sentCommands (deleteSmsByMode m.value t).2) := by
  have htrace : ∀ m : SmsDeleteMode, (deleteSmsByMode m.value t).2.trace = t.trace ++
      [Effect.sendAT ("+CMGDA=\"DEL " ++ m.name ++ "\""), Effect.waitResponse 10000] := by
    intro m
    cases m <;> by_cases hs : nextStatus t = 1 <;>
      simp [deleteSmsByMode, SmsDeleteMode.value, SmsDeleteMode.name, hs, String.join]
  refine ⟨htrace mode, ?_, ?_⟩
  · cases mode <;> by_cases hs : nextStatus t = 1 <;>
      simp [deleteSmsByMode, SmsDeleteMode.value, hs]
  · intro a b hab
    simp only [sentCommands, htrace, List.filterMap_append] at hab
    have hcmd := List.append_cancel_left hab
    revert hcmd
    cases a <;> cases b <;> decide

/-- C10: `hardwareReset` writes the reset level, waits 2000 ms, writes the
opposite level, waits 5000 ms and restarts once, in this order and with
nothing else, and returns what the restart returned. -/
theorem hardwareReset_sequence (resetPin : Nat) (resetLogic : Bool) (t : Transport) :
    (hardwareReset resetPin resetLogic t).2.trace = t.trace ++
      [Effect.digitalWrite resetPin resetLogic, Effect.delay 2000,
       Effect.digitalWrite resetPin (!resetLogic), Effect.delay 5000, Effect.restart] ∧
    (hardwareReset resetPin resetLogic t).1 = t.restartResult := by
  simp [hardwareReset, restart, delay, digitalWrite]

/-- C9: when `waitResponse` returns a status other than `1`,
`checkForNewSMS` returns `-1`, `getSmsNumber` and `getSmsText` return the
empty string, and the five boolean operations return `false`, whatever the
arguments; the three reading operations leave the pending stream untouched
and no operation sends more than one command. -/
theorem unacknowledged_exchange_reports_failure (intBits : Nat) (t : Transport)
    (hnack : nextStatus t ≠ 1)
    (format : Bool) (mode mt bm ds bfr fo vp pid dcs deleteMode : Nat) (smsIndex : Int) :
    ((checkForNewSMS intBits t).1 = -1 ∧
      (checkForNewSMS intBits t).2.stream = t.stream ∧
      (sentCommands (checkForNewSMS intBits t).2).length = (sentCommands t).length + 1) ∧
    ((getSmsNumber smsIndex t).1 = [] ∧
      (getSmsNumber smsIndex t).2.stream = t.stream ∧
      (sentCommands (getSmsNumber smsIndex t).2).length = (sentCommands t).length + 1) ∧
    ((getSmsText smsIndex t).1 = [] ∧
      (getSmsText smsIndex t).2.stream = t.stream ∧
      (sentCommands (getSmsText smsIndex t).2).length = (sentCommands t).length + 1) ∧
    ((setSmsMessageFormat format t).1 = false ∧
      (sentCommands (setSmsMessageFormat format t).2).length = (sentCommands t).length + 1) ∧
    ((setSmsIndication mode mt bm ds bfr t).1 = false ∧
      (sentCommands (setSmsIndication mode mt bm ds bfr t).2).length
        ≤ (sentCommands t).length + 1) ∧
    ((setSmsParameters fo vp pid dcs t).1 = false ∧
      (sentCommands (setSmsParameters fo vp pid dcs t).2).length
        ≤ (sentCommands t).length + 1) ∧
    ((deleteSmsByMode deleteMode t).1 = false ∧
      (sentCommands (deleteSmsByMode deleteMode t).2).length ≤ (sentCommands t).length + 1) ∧
    ((deleteSmsByIndex smsIndex t).1 = false ∧
      (sentCommands (deleteSmsByIndex smsIndex t).2).length = (sentCommands t).length + 1) := by
  refine ⟨?_, ?_, ?_, ?_, ?_, ?_, ?_, ?_⟩
  · simp [checkForNewSMS, hnack, sentCommands, List.filterMap_append]
  · simp [getSmsNumber, hnack, sentCommands, List.filterMap_append]
  · simp [getSmsText, hnack, sentCommands, List.filterMap_append]
  · simp [setSmsMessageFormat, hnack, sentCommands, List.filterMap_append]
  · unfold setSmsIndication
    split_ifs <;> simp [hnack, sentCommands, List.filterMap_append]
  · unfold setSmsParameters
    split_ifs <;> simp [hnack, sentCommands, List.filterMap_append]
  · unfold deleteSmsByMode
    split <;> simp [hnack, sentCommands, List.filterMap_append]
  · simp [deleteSmsByIndex, hnack, sentCommands, List.filterMap_append]

/-- C9, witness: a modem that answers `2` (its error status) while a full
listing is pending on the stream. -/
theorem unacknowledged_exchange_reports_failure_witness :
    (checkForNewSMS 16 (freshTransport 2 "+CMGL: 3,\"REC UNREAD\"\nHi\n")).1 = -1 ∧
    (getSmsNumber 3 (freshTransport 2 "+CMGL: 3,\"REC UNREAD\"\nHi\n")).1 = [] ∧
    (getSmsText 3 (freshTransport 2 "+CMGL: 3,\"REC UNREAD\"\nHi\n")).1 = [] ∧
    (getSmsText 3 (freshTransport 2 "+CMGL: 3,\"REC UNREAD\"\nHi\n")).2.stream
      = "+CMGL: 3,\"REC UNREAD\"\nHi\n".toList ∧
    (deleteSmsByMode 5 (freshTransport 2 "+CMGL: 3,\"REC UNREAD\"\nHi\n")).1 = false :=
  have h := unacknowledged_exchange_reports_failure 16
    (freshTransport 2 "+CMGL: 3,\"REC UNREAD\"\nHi\n") (by decide) true 1 2 0 0 0 17 167 0 0 5 3
  ⟨h.1.1, h.2.1.1, h.2.2.1.1, h.2.2.1.2.1, h.2.2.2.2.2.2.1.1⟩

end ExtendedTinyGSM
